import Mathlib

/-!
Verification development for the realtor.ca listing ingestion and storage
subsystem (TypeScript, `src/utils.ts` and its extended variant).

Modelling conventions:
* JavaScript strings are modelled as `List Char` (`Str`); `String.prototype.trim`
  is `jsTrim`, `String.prototype.toUpperCase` is `jsToUpper`,
  `String.prototype.substring(0, n)` is `List.take n`.
* An ExcelJS worksheet is modelled by its list of data rows (the fixed header
  row of a sheet is not stored but is accounted for where the code counts rows:
  `worksheet.rowCount` equals number of data rows plus one).
* JavaScript truthiness tests on cell strings (`!row.getCell(i).value`) are
  modelled as emptiness tests on the corresponding field.
* Floating-point threshold comparisons (`a > b * 0.05` and similar) are
  modelled by the exact rational comparison, written with cross-multiplied
  naturals (`20 * a > b`).
* File I/O effects are modelled by explicit state (the spill-file state
  `MemoryState`, the file-system state `FsState` with a success/failure
  oracle `IoOracle` for the primitive operations).
-/

/-- JavaScript string, modelled as a list of characters. -/
abbrev Str := List Char

/-- Model of `String.prototype.trim`: strip whitespace from both ends. -/
def jsTrim (s : Str) : Str :=
  ((s.dropWhile Char.isWhitespace).reverse.dropWhile Char.isWhitespace).reverse

/-- Model of `String.prototype.toUpperCase` (ASCII case mapping). -/
def jsToUpper (s : Str) : Str := s.map Char.toUpper

/-- Composite `s.toUpperCase().trim()` — the normalization used by `checkIfPropertyExists`. -/
def normUT (s : Str) : Str := jsTrim (jsToUpper s)

/-- Composite `s.trim().toUpperCase()` — the normalization used by `removeDuplicates`. -/
def normTU (s : Str) : Str := jsToUpper (jsTrim s)

/-- The `PropertyData` record of `src/scraper.ts`: ten string fields. -/
structure PropertyData where
  DATE : Str
  ADDRESS : Str
  CITY : Str
  STATE : Str
  POSTAL : Str
  AGENT : Str
  BROKER : Str
  PRICE : Str
  LATITUDE : Str
  LONGITUDE : Str
deriving DecidableEq

/-- Configuration `MEMORY_CONFIG.MAX_PROPERTIES_IN_MEMORY`: flush to temp file after this
many buffered properties. -/
def MAX_PROPERTIES_IN_MEMORY : Nat := 50

/-- The module-level spill bookkeeping of `utils.ts`: `currentTempData` (the
in-memory buffer), `tempFiles` (modelled by the contents of the numbered
temp files, in ascending file-number order) and `tempFileCounter`. -/
structure MemoryState where
  currentTempData : List PropertyData
  tempFiles : List (List PropertyData)
  tempFileCounter : Nat
deriving DecidableEq

/-- The initial spill state: empty buffer, no temp files, counter zero. -/
def initMemoryState : MemoryState := ⟨[], [], 0⟩

/-- Model of `flushToTempFile`: if the buffer is empty do nothing, otherwise write the
buffer as the next numbered temp file, clear the buffer and advance the
counter. -/
def flushToTempFile (st : MemoryState) : MemoryState :=
  if st.currentTempData.isEmpty then st
  else
    { currentTempData := []
      tempFiles := st.tempFiles ++ [st.currentTempData]
      tempFileCounter := st.tempFileCounter + 1 }

/-- The spill bookkeeping of `addPropertyToMemoryEfficientSystem`: push the
property onto `currentTempData`; flush once the buffer length reaches
`MAX_PROPERTIES_IN_MEMORY`. -/
def trackProperty (st : MemoryState) (p : PropertyData) : MemoryState :=
  let st1 : MemoryState := { st with currentTempData := st.currentTempData ++ [p] }
  if MAX_PROPERTIES_IN_MEMORY ≤ st1.currentTempData.length then flushToTempFile st1 else st1

/-- Track a whole sequence of properties, one at a time, in order. -/
def trackAll (st : MemoryState) (data : List PropertyData) : MemoryState :=
  data.foldl trackProperty st

/-- Model of `loadAllDataFromTempFiles`: first push the records still in memory, then
the contents of the temp files in ascending file order. -/
def loadAllDataFromTempFiles (st : MemoryState) : List PropertyData :=
  st.currentTempData ++ st.tempFiles.flatten

/-- Model of `cleanupTempFiles`: flush any remaining buffered data, delete every temp
file, and reset `tempFiles`, `currentTempData` and `tempFileCounter`. -/
def cleanupTempFiles (st : MemoryState) : MemoryState :=
  let flushed := if st.currentTempData.isEmpty then st else flushToTempFile st
  { flushed with currentTempData := [], tempFiles := [], tempFileCounter := 0 }

/-- The record returned by `getMemoryStats`.  `estimatedMemoryHundredthsMB`
models `Math.round(propertiesInMemory * 1024 / (1024 * 1024) * 100)`, the
megabyte estimate scaled by 100 to stay in exact integer arithmetic. -/
structure MemoryStats where
  propertiesInMemory : Nat
  tempFilesCount : Nat
  estimatedMemoryHundredthsMB : Nat
deriving DecidableEq

/-- Model of `getMemoryStats`: buffer length, temp file count and the memory estimate. -/
def getMemoryStats (st : MemoryState) : MemoryStats :=
  { propertiesInMemory := st.currentTempData.length
    tempFilesCount := st.tempFiles.length
    estimatedMemoryHundredthsMB := (st.currentTempData.length * 100 + 512) / 1024 }

theorem flushToTempFile_flatten (st : MemoryState) :
    (flushToTempFile st).tempFiles.flatten ++ (flushToTempFile st).currentTempData
      = st.tempFiles.flatten ++ st.currentTempData := by
  unfold flushToTempFile
  split
  · rfl
  · simp

theorem trackProperty_flatten (st : MemoryState) (p : PropertyData) :
    (trackProperty st p).tempFiles.flatten ++ (trackProperty st p).currentTempData
      = st.tempFiles.flatten ++ st.currentTempData ++ [p] := by
  unfold trackProperty
  dsimp only []
  split
  · rw [flushToTempFile_flatten]
    simp
  · simp

/-- Data tracked so far is exactly the flushed segments (in ascending order)
followed by the in-memory remainder. -/
theorem trackAll_flatten (data : List PropertyData) (st : MemoryState) :
    (trackAll st data).tempFiles.flatten ++ (trackAll st data).currentTempData
      = st.tempFiles.flatten ++ st.currentTempData ++ data := by
  induction data generalizing st with
  | nil => simp [trackAll]
  | cons p rest ih =>
      have h1 : trackAll st (p :: rest) = trackAll (trackProperty st p) rest := rfl
      rw [h1, ih, trackProperty_flatten]
      simp

/-- C4 (amended): the segments flushed by `track`, in ascending order, followed
by the unflushed in-memory remainder reproduce the tracked sequence exactly;
but `loadAllDataFromTempFiles` returns the remainder FIRST and the flushed
segments after it, so its result is only a permutation of the tracked
sequence (it equals it exactly just when the remainder or the segment list is
empty), not the original ingestion order in general. -/
theorem loadAllDataFromTempFiles_trackAll_spec (data : List PropertyData) :
    (trackAll initMemoryState data).tempFiles.flatten
        ++ (trackAll initMemoryState data).currentTempData = data
    ∧ loadAllDataFromTempFiles (trackAll initMemoryState data)
        = (trackAll initMemoryState data).currentTempData
            ++ (trackAll initMemoryState data).tempFiles.flatten
    ∧ (loadAllDataFromTempFiles (trackAll initMemoryState data)).Perm data := by
  have h := trackAll_flatten data initMemoryState
  simp only [initMemoryState, List.flatten_nil, List.nil_append] at h
  refine ⟨h, rfl, ?_⟩
  show ((trackAll initMemoryState data).currentTempData
      ++ (trackAll initMemoryState data).tempFiles.flatten).Perm data
  conv_rhs => rw [← h]
  exact List.perm_append_comm

/-- A property record with all ten fields empty. -/
def blankProperty : PropertyData := ⟨[], [], [], [], [], [], [], [], [], []⟩

/-- A property record distinguishable from `blankProperty`. -/
def markedProperty : PropertyData := { blankProperty with ADDRESS := ['A'] }

/-- Data of 51 tracked records: the first 50 fill one temp file, the 51st stays in the
in-memory buffer. -/
def spillCounterexampleData : List PropertyData :=
  List.replicate 50 blankProperty ++ [markedProperty]

set_option maxRecDepth 4000 in
/-- C4 (counterexample): after tracking 51 records (one full temp file of 50
plus one buffered record), `loadAllDataFromTempFiles` puts the buffered 51st
record first, so the returned sequence is NOT the original ingestion order. -/
theorem loadAllDataFromTempFiles_not_original_order :
    loadAllDataFromTempFiles (trackAll initMemoryState spillCounterexampleData)
      ≠ spillCounterexampleData := by decide

/-- C10: `cleanupTempFiles` always returns the spill system to its initial
state — empty buffer, no temp files, counter zero — regardless of the state
before the call: any records still buffered are flushed to a temp file and
that file is then deleted with the rest, so nothing tracked since the last
flush survives a cleanup that runs before the data was re-loaded. -/
theorem cleanupTempFiles_resets (st : MemoryState) :
    cleanupTempFiles st = initMemoryState
    ∧ loadAllDataFromTempFiles (cleanupTempFiles st) = []
    ∧ getMemoryStats (cleanupTempFiles st) = ⟨0, 0, 0⟩ := by
  have h : cleanupTempFiles st = initMemoryState := rfl
  refine ⟨h, ?_, ?_⟩ <;> rw [h] <;> rfl

/-- The primary key built by `removeDuplicates`:
`ADDRESS.trim().toUpperCase() + "-" + POSTAL.trim().toUpperCase()`. -/
def primaryKeyOf (p : PropertyData) : Str :=
  normTU p.ADDRESS ++ '-' :: normTU p.POSTAL

/-- The detailed key built by `removeDuplicates` for same-address listings:
`primaryKey + "-" + PRICE + "-" + AGENT.toUpperCase()` (PRICE enters raw,
untrimmed). -/
def detailedKeyOf (p : PropertyData) : Str :=
  primaryKeyOf p ++ '-' :: p.PRICE ++ '-' :: jsToUpper p.AGENT

/-- Lookup (`Map.get`) on the `seen` map of `removeDuplicates` (keys are never
overwritten, so an association list is an exact model). -/
def findVal : List (Str × PropertyData) → Str → Option PropertyData
  | [], _ => none
  | (k, v) :: rest, key => if k = key then some v else findVal rest key

/-- The `isPriceMatch` test of `removeDuplicates`: PRICE compared after
trimming only — the case of letters in PRICE is significant. -/
def priceMatches (a b : PropertyData) : Prop := jsTrim a.PRICE = jsTrim b.PRICE

/-- The `isAgentMatch` test of `removeDuplicates`: AGENT compared after
trimming and uppercasing. -/
def agentMatches (a b : PropertyData) : Prop := normTU a.AGENT = normTU b.AGENT

instance (a b : PropertyData) : Decidable (priceMatches a b) := by
  unfold priceMatches; infer_instance

instance (a b : PropertyData) : Decidable (agentMatches a b) := by
  unfold agentMatches; infer_instance

/-- The loop body of `removeDuplicates`, processing the remaining records
against the `seen` map and returning the `unique` list.  A record whose
primary key is unseen is kept and registered; at a seen primary key the
record is dropped when price and agent match the registered record, and
otherwise kept under its detailed key unless that key is taken too. -/
def removeDupsGo : List (Str × PropertyData) → List PropertyData → List PropertyData
  | _, [] => []
  | seen, p :: rest =>
    match findVal seen (primaryKeyOf p) with
    | none => p :: removeDupsGo ((primaryKeyOf p, p) :: seen) rest
    | some q =>
      if priceMatches q p ∧ agentMatches q p then
        removeDupsGo seen rest
      else
        match findVal seen (detailedKeyOf p) with
        | some _ => removeDupsGo seen rest
        | none => p :: removeDupsGo ((detailedKeyOf p, p) :: seen) rest

/-- Model of `removeDuplicates` of `utils.ts`: returns the `unique` records, in input
order, starting from an empty `seen` map. -/
def removeDuplicates (data : List PropertyData) : List PropertyData :=
  removeDupsGo [] data

/-- A worksheet, modelled by its data rows (the header row is implicit). -/
abbrev Worksheet := List PropertyData

/-- A workbook: named worksheets in creation order. -/
abbrev Workbook := List (Str × Worksheet)

/-- Model of `workbook.getWorksheet(name)`. -/
def getSheet : Workbook → Str → Option Worksheet
  | [], _ => none
  | (n, ws) :: rest, name => if n = name then some ws else getSheet rest name

/-- Replace the rows of the named worksheet (used to model in-place mutation
of a worksheet object held by the workbook). -/
def setSheet : Workbook → Str → Worksheet → Workbook
  | [], _, _ => []
  | (n, ws) :: rest, name, rows =>
    if n = name then (n, rows) :: rest else (n, ws) :: setSheet rest name rows

/-- One scanned row of `checkIfPropertyExists` (extended variant): the row
participates only if it passes the presence guards (raw ADDRESS/POSTAL cells
non-empty, i.e. truthy, and still non-empty after uppercase+trim), and it
certifies a duplicate when address, postal, price and agent all match —
address, postal and agent via `.toUpperCase().trim()`, PRICE via `.trim()`
only. -/
def rowSignalsDuplicate (r p : PropertyData) : Bool :=
  decide (r.ADDRESS ≠ [] ∧ r.POSTAL ≠ [])
  && decide (normUT r.ADDRESS ≠ [] ∧ normUT r.POSTAL ≠ [])
  && decide (normUT r.ADDRESS = normUT p.ADDRESS ∧ normUT r.POSTAL = normUT p.POSTAL)
  && decide (jsTrim r.PRICE = jsTrim p.PRICE ∧ normUT r.AGENT = normUT p.AGENT)

/-- Model of `checkIfPropertyExists`: scan every data row of the worksheet; return
true iff some row passes all guards and matches the candidate on
address+postal (primary) and price+agent (secondary). -/
def checkIfPropertyExists (ws : Worksheet) (p : PropertyData) : Bool :=
  ws.any fun r => rowSignalsDuplicate r p

/-- Model of `addPropertyToWorkbook`: create the worksheet for the postal-prefix if
missing; when `checkDuplicates` is set (the master-file path), skip the
record if `checkIfPropertyExists` reports a duplicate; otherwise append the
row.  The source returns void — the Bool of the model records which branch
was taken (`true` = row appended, `false` = duplicate skipped).  No capacity
bound of any kind is consulted. -/
def addPropertyToWorkbook (wb : Workbook) (p : PropertyData) (postalPfx : Str)
    (checkDuplicates : Bool) : Workbook × Bool :=
  let wb1 := match getSheet wb postalPfx with
    | some _ => wb
    | none => wb ++ [(postalPfx, [])]
  let ws := (getSheet wb1 postalPfx).getD []
  if checkDuplicates && checkIfPropertyExists ws p then (wb1, false)
  else (setSheet wb1 postalPfx (ws ++ [p]), true)

/-- The master-file ingestion step for one candidate record, as performed by
`addPropertyToExcel`: route by the first two characters of POSTAL uppercased
and add to the master workbook with duplicate checking on.  (The caller also
stores uppercased copies of the text fields; every comparison made by the
duplicate check normalizes both sides itself, so the verdicts are those of
the source.) -/
def ingestIntoMaster (wb : Workbook) (p : PropertyData) : Workbook × Bool :=
  addPropertyToWorkbook wb p (jsToUpper (p.POSTAL.take 2)) true

/-- The CompositeKey of the specification (§3): normalized ADDRESS, POSTAL,
PRICE and AGENT with normalize = trim + uppercase.  Used only to state what
"one row for R's CompositeKey" means; the code's own keys are
`primaryKeyOf`/`detailedKeyOf` above. -/
def specCompositeKey (p : PropertyData) : Str :=
  normTU p.ADDRESS ++ normTU p.POSTAL ++ normTU p.PRICE ++ normTU p.AGENT

/-- All data rows of a workbook, in sheet order. -/
def allRows (wb : Workbook) : List PropertyData := (wb.map Prod.snd).flatten

/-- Number of rows of the workbook sharing the candidate's CompositeKey. -/
def compositeRowCount (wb : Workbook) (p : PropertyData) : Nat :=
  ((allRows wb).filter fun r => specCompositeKey r == specCompositeKey p).length

theorem ne_nil_of_normUT_ne_nil {s : Str} (h : normUT s ≠ []) : s ≠ [] := by
  intro hs
  exact h (by rw [hs]; rfl)

theorem checkIfPropertyExists_self (p : PropertyData)
    (hA : normUT p.ADDRESS ≠ []) (hP : normUT p.POSTAL ≠ []) :
    checkIfPropertyExists [p] p = true := by
  have h1 := ne_nil_of_normUT_ne_nil hA
  have h2 := ne_nil_of_normUT_ne_nil hP
  simp [checkIfPropertyExists, rowSignalsDuplicate, h1, h2, hA, hP]

/-- C1 (amended): for every record whose ADDRESS and POSTAL are non-empty
after uppercase+trim, ingesting it twice into an empty master workbook adds
it the first time, rejects the second submission as an exact duplicate with
no change to the workbook, and leaves exactly one row for the record's
CompositeKey.  (The non-emptiness proviso is required: the duplicate scan
skips rows whose ADDRESS or POSTAL cell is empty, so such records are
re-added — see the counterexample.) -/
theorem ingest_identical_twice (p : PropertyData)
    (hA : normUT p.ADDRESS ≠ []) (hP : normUT p.POSTAL ≠ []) :
    (ingestIntoMaster [] p).2 = true
    ∧ (ingestIntoMaster (ingestIntoMaster [] p).1 p).2 = false
    ∧ (ingestIntoMaster (ingestIntoMaster [] p).1 p).1 = (ingestIntoMaster [] p).1
    ∧ compositeRowCount (ingestIntoMaster [] p).1 p = 1 := by
  have h1 : ingestIntoMaster [] p = ([(jsToUpper (p.POSTAL.take 2), [p])], true) := by
    simp [ingestIntoMaster, addPropertyToWorkbook, getSheet, setSheet,
      checkIfPropertyExists]
  have h2 : ingestIntoMaster [(jsToUpper (p.POSTAL.take 2), [p])] p
      = ([(jsToUpper (p.POSTAL.take 2), [p])], false) := by
    simp [ingestIntoMaster, addPropertyToWorkbook, getSheet,
      checkIfPropertyExists_self p hA hP]
  refine ⟨by rw [h1], ?_, ?_, ?_⟩
  · rw [h1, h2]
  · rw [h1, h2]
  · rw [h1]
    simp [compositeRowCount, allRows]

/-- Concrete record used to instantiate `ingest_identical_twice`. -/
def sampleListing : PropertyData :=
  { DATE := ['2', '5'], ADDRESS := ['1', ' ', 'M', 'a', 'i', 'n'],
    CITY := ['T', 'o'], STATE := ['O', 'N'],
    POSTAL := ['M', '5', 'V', '3', 'A', '8'], AGENT := ['S', 'm', 'i', 't', 'h'],
    BROKER := ['R', 'L'], PRICE := ['$', '8', '0', '0'],
    LATITUDE := ['4', '3'], LONGITUDE := ['-', '7', '9'] }

/-- Witness for C1 (amended) at a concrete record. -/
theorem ingest_identical_twice_witness :
    (ingestIntoMaster [] sampleListing).2 = true
    ∧ (ingestIntoMaster (ingestIntoMaster [] sampleListing).1 sampleListing).2 = false
    ∧ (ingestIntoMaster (ingestIntoMaster [] sampleListing).1 sampleListing).1
        = (ingestIntoMaster [] sampleListing).1
    ∧ compositeRowCount (ingestIntoMaster [] sampleListing).1 sampleListing = 1 :=
  ingest_identical_twice sampleListing (by decide) (by decide)

/-- A record with an empty ADDRESS cell (the data model allows malformed
fields). -/
def emptyAddressListing : PropertyData :=
  { DATE := ['d'], ADDRESS := [], CITY := ['c'], STATE := ['s'],
    POSTAL := ['M', '5'], AGENT := ['a'], BROKER := ['b'], PRICE := ['1'],
    LATITUDE := ['x'], LONGITUDE := ['y'] }

/-- C1 (counterexample): the claim fails for a record with an empty ADDRESS:
the duplicate scan skips rows with an empty ADDRESS cell, so the identical
second submission is accepted again (not rejected as `ExactDuplicate`) and
the store ends with two rows for the record's CompositeKey instead of one. -/
theorem ingest_identical_twice_empty_address :
    (ingestIntoMaster (ingestIntoMaster [] emptyAddressListing).1 emptyAddressListing).2
      = true
    ∧ compositeRowCount
        (ingestIntoMaster (ingestIntoMaster [] emptyAddressListing).1
          emptyAddressListing).1 emptyAddressListing = 2 := by decide

/-- C2 (amended): at an equal PrimaryKey (equal uppercased-trimmed ADDRESS
and POSTAL), the duplicate check classifies a candidate as an exact duplicate
of the stored record exactly when the TRIMMED-ONLY prices agree and the
trimmed-and-uppercased agents agree: PRICE comparison is case-sensitive
(only surrounding whitespace is ignored), AGENT comparison is
case-insensitive. -/
theorem checkIfPropertyExists_discriminator (r1 r2 : PropertyData)
    (hA : normUT r1.ADDRESS ≠ []) (hP : normUT r1.POSTAL ≠ [])
    (hpkA : normUT r1.ADDRESS = normUT r2.ADDRESS)
    (hpkP : normUT r1.POSTAL = normUT r2.POSTAL) :
    checkIfPropertyExists [r1] r2 = true
      ↔ (jsTrim r1.PRICE = jsTrim r2.PRICE ∧ normUT r1.AGENT = normUT r2.AGENT) := by
  have h1 := ne_nil_of_normUT_ne_nil hA
  have h2 := ne_nil_of_normUT_ne_nil hP
  have hA2 : normUT r2.ADDRESS ≠ [] := hpkA ▸ hA
  have hP2 : normUT r2.POSTAL ≠ [] := hpkP ▸ hP
  simp [checkIfPropertyExists, rowSignalsDuplicate, h1, h2, hA, hP, hA2, hP2,
    hpkA, hpkP]

/-- Witness for C2 (amended) at a concrete record pair. -/
theorem checkIfPropertyExists_discriminator_witness :
    checkIfPropertyExists [sampleListing] sampleListing = true
      ↔ (jsTrim sampleListing.PRICE = jsTrim sampleListing.PRICE
          ∧ normUT sampleListing.AGENT = normUT sampleListing.AGENT) :=
  checkIfPropertyExists_discriminator sampleListing sampleListing
    (by decide) (by decide) (by decide) (by decide)

/-- A stored listing whose PRICE ends in a lowercase letter. -/
def caseListingLower : PropertyData :=
  { DATE := ['d'], ADDRESS := ['1'], CITY := [], STATE := [],
    POSTAL := ['M', '5'], AGENT := ['a', 'g'], BROKER := [],
    PRICE := ['1', '.', '2', 'm'], LATITUDE := [], LONGITUDE := [] }

/-- The same listing re-submitted with the PRICE letter uppercased. -/
def caseListingUpper : PropertyData :=
  { caseListingLower with PRICE := ['1', '.', '2', 'M'] }

/-- C2 (counterexample): the two records share the PrimaryKey and have equal
trimmed-and-uppercased PRICE and AGENT, so the claim classifies them as
ExactDuplicate; the code compares PRICE without case folding and classifies
the pair as a variant instead — `checkIfPropertyExists` reports no duplicate
and `removeDuplicates` keeps both records. -/
theorem price_case_not_folded :
    primaryKeyOf caseListingLower = primaryKeyOf caseListingUpper
    ∧ normTU caseListingLower.PRICE = normTU caseListingUpper.PRICE
    ∧ normTU caseListingLower.AGENT = normTU caseListingUpper.AGENT
    ∧ checkIfPropertyExists [caseListingLower] caseListingUpper = false
    ∧ (removeDuplicates [caseListingLower, caseListingUpper]).length = 2 := by decide

/-- The relation under which `removeDuplicates` drops a record `p` in favour
of a previously registered record `q`: either `p`'s primary key is the key
`q` is registered under and price and agent match (the `isPriceMatch &&
isAgentMatch` branch), or `p`'s detailed key is the key `q` is registered
under (the `seen.has(detailedKey)` branch). -/
def classifiedDuplicateOf (q p : PropertyData) : Prop :=
  ((primaryKeyOf p = primaryKeyOf q ∨ primaryKeyOf p = detailedKeyOf q)
      ∧ priceMatches q p ∧ agentMatches q p)
  ∨ (detailedKeyOf p = primaryKeyOf q ∨ detailedKeyOf p = detailedKeyOf q)

theorem findVal_mem {seen : List (Str × PropertyData)} {k : Str}
    {v : PropertyData} (h : findVal seen k = some v) : (k, v) ∈ seen := by
  induction seen with
  | nil => simp [findVal] at h
  | cons kv rest ih =>
      obtain ⟨k', v'⟩ := kv
      rw [findVal] at h
      by_cases hk : k' = k
      · rw [if_pos hk] at h
        cases h
        subst hk
        exact List.mem_cons_self _ _
      · rw [if_neg hk] at h
        exact List.mem_cons_of_mem _ (ih h)

theorem removeDupsGo_sublist (rest : List PropertyData)
    (seen : List (Str × PropertyData)) : (removeDupsGo seen rest).Sublist rest := by
  induction rest generalizing seen with
  | nil => simp [removeDupsGo]
  | cons p rest ih =>
      rw [removeDupsGo]
      cases h : findVal seen (primaryKeyOf p) with
      | none => exact (ih _).cons₂ p
      | some q =>
          dsimp only
          by_cases hm : priceMatches q p ∧ agentMatches q p
          · rw [if_pos hm]
            exact (ih seen).cons p
          · rw [if_neg hm]
            cases h2 : findVal seen (detailedKeyOf p) with
            | some _ => exact (ih seen).cons p
            | none => exact (ih _).cons₂ p

theorem removeDupsGo_earliest (rest : List PropertyData) :
    ∀ (seen : List (Str × PropertyData)),
    (∀ kv ∈ seen, kv.1 = primaryKeyOf kv.2 ∨ kv.1 = detailedKeyOf kv.2) →
    ∀ i (h : i < rest.length),
      rest.get ⟨i, h⟩ ∈ removeDupsGo seen rest
      ∨ (∃ q k, (k, q) ∈ seen ∧ classifiedDuplicateOf q (rest.get ⟨i, h⟩))
      ∨ (∃ j, ∃ hj : j < rest.length, j < i
          ∧ rest.get ⟨j, hj⟩ ∈ removeDupsGo seen rest
          ∧ classifiedDuplicateOf (rest.get ⟨j, hj⟩) (rest.get ⟨i, h⟩)) := by
  induction rest with
  | nil =>
      intro seen _ i h
      exact absurd h (by simp)
  | cons p rest ih =>
      intro seen hinv i h
      cases hpk : findVal seen (primaryKeyOf p) with
      | none =>
          have hout : removeDupsGo seen (p :: rest)
              = p :: removeDupsGo ((primaryKeyOf p, p) :: seen) rest := by
            rw [removeDupsGo, hpk]
          have hinv' : ∀ kv ∈ ((primaryKeyOf p, p) :: seen),
              kv.1 = primaryKeyOf kv.2 ∨ kv.1 = detailedKeyOf kv.2 := by
            intro kv hkv
            rcases List.mem_cons.mp hkv with rfl | hkv
            · exact Or.inl rfl
            · exact hinv kv hkv
          cases i with
          | zero =>
              left
              rw [hout]
              simp
          | succ i =>
              have h' : i < rest.length := by
                simpa using Nat.lt_of_succ_lt_succ h
              have hx : (p :: rest).get ⟨i + 1, h⟩ = rest.get ⟨i, h'⟩ := by simp
              rcases ih ((primaryKeyOf p, p) :: seen) hinv' i h' with hmem | ⟨q, k, hk, hrel⟩ | ⟨j, hj, hij, hmem, hrel⟩
              · left
                rw [hout, hx]
                exact List.mem_cons_of_mem _ hmem
              · rcases List.mem_cons.mp hk with heq | hk
                · right; right
                  refine ⟨0, by simp, Nat.succ_pos i, ?_, ?_⟩
                  · rw [hout]
                    simp
                  · have hq : q = p := congrArg Prod.snd heq
                    rw [hx]
                    simpa [List.get, hq] using hrel
                · right; left
                  rw [hx]
                  exact ⟨q, k, hk, hrel⟩
              · right; right
                have hj' : j + 1 < (p :: rest).length := by
                  simpa using Nat.succ_lt_succ hj
                refine ⟨j + 1, hj', Nat.succ_lt_succ hij, ?_, ?_⟩
                · rw [hout]
                  exact List.mem_cons_of_mem _ (by simpa using hmem)
                · rw [hx]
                  simpa using hrel
      | some q =>
          by_cases hm : priceMatches q p ∧ agentMatches q p
          · have hout : removeDupsGo seen (p :: rest) = removeDupsGo seen rest := by
              rw [removeDupsGo, hpk]
              dsimp only
              rw [if_pos hm]
            cases i with
            | zero =>
                right; left
                refine ⟨q, primaryKeyOf p, findVal_mem hpk, ?_⟩
                have hkey := hinv _ (findVal_mem hpk)
                simp only [List.get]
                exact Or.inl ⟨hkey, hm.1, hm.2⟩
            | succ i =>
                have h' : i < rest.length := by
                  simpa using Nat.lt_of_succ_lt_succ h
                have hx : (p :: rest).get ⟨i + 1, h⟩ = rest.get ⟨i, h'⟩ := by simp
                rcases ih seen hinv i h' with hmem | ⟨q', k, hk, hrel⟩ | ⟨j, hj, hij, hmem, hrel⟩
                · left
                  rw [hout, hx]
                  exact hmem
                · right; left
                  rw [hx]
                  exact ⟨q', k, hk, hrel⟩
                · right; right
                  have hj' : j + 1 < (p :: rest).length := by
                    simpa using Nat.succ_lt_succ hj
                  refine ⟨j + 1, hj', Nat.succ_lt_succ hij, ?_, ?_⟩
                  · rw [hout]
                    simpa using hmem
                  · rw [hx]
                    simpa using hrel
          · cases hdk : findVal seen (detailedKeyOf p) with
            | some q2 =>
                have hout : removeDupsGo seen (p :: rest) = removeDupsGo seen rest := by
                  rw [removeDupsGo, hpk]
                  dsimp only
                  rw [if_neg hm, hdk]
                cases i with
                | zero =>
                    right; left
                    refine ⟨q2, detailedKeyOf p, findVal_mem hdk, ?_⟩
                    have hkey := hinv _ (findVal_mem hdk)
                    simp only [List.get]
                    exact Or.inr hkey
                | succ i =>
                    have h' : i < rest.length := by
                      simpa using Nat.lt_of_succ_lt_succ h
                    have hx : (p :: rest).get ⟨i + 1, h⟩ = rest.get ⟨i, h'⟩ := by simp
                    rcases ih seen hinv i h' with hmem | ⟨q', k, hk, hrel⟩ | ⟨j, hj, hij, hmem, hrel⟩
                    · left
                      rw [hout, hx]
                      exact hmem
                    · right; left
                      rw [hx]
                      exact ⟨q', k, hk, hrel⟩
                    · right; right
                      have hj' : j + 1 < (p :: rest).length := by
                        simpa using Nat.succ_lt_succ hj
                      refine ⟨j + 1, hj', Nat.succ_lt_succ hij, ?_, ?_⟩
                      · rw [hout]
                        simpa using hmem
                      · rw [hx]
                        simpa using hrel
            | none =>
                have hout : removeDupsGo seen (p :: rest)
                    = p :: removeDupsGo ((detailedKeyOf p, p) :: seen) rest := by
                  rw [removeDupsGo, hpk]
                  dsimp only
                  rw [if_neg hm, hdk]
                have hinv' : ∀ kv ∈ ((detailedKeyOf p, p) :: seen),
                    kv.1 = primaryKeyOf kv.2 ∨ kv.1 = detailedKeyOf kv.2 := by
                  intro kv hkv
                  rcases List.mem_cons.mp hkv with rfl | hkv
                  · exact Or.inr rfl
                  · exact hinv kv hkv
                cases i with
                | zero =>
                    left
                    rw [hout]
                    simp
                | succ i =>
                    have h' : i < rest.length := by
                      simpa using Nat.lt_of_succ_lt_succ h
                    have hx : (p :: rest).get ⟨i + 1, h⟩ = rest.get ⟨i, h'⟩ := by simp
                    rcases ih ((detailedKeyOf p, p) :: seen) hinv' i h' with hmem | ⟨q', k, hk, hrel⟩ | ⟨j, hj, hij, hmem, hrel⟩
                    · left
                      rw [hout, hx]
                      exact List.mem_cons_of_mem _ hmem
                    · rcases List.mem_cons.mp hk with heq | hk
                      · right; right
                        refine ⟨0, by simp, Nat.succ_pos i, ?_, ?_⟩
                        · rw [hout]
                          simp
                        · have hq : q' = p := congrArg Prod.snd heq
                          rw [hx]
                          simpa [List.get, hq] using hrel
                      · right; left
                        rw [hx]
                        exact ⟨q', k, hk, hrel⟩
                    · right; right
                      have hj' : j + 1 < (p :: rest).length := by
                        simpa using Nat.succ_lt_succ hj
                      refine ⟨j + 1, hj', Nat.succ_lt_succ hij, ?_, ?_⟩
                      · rw [hout]
                        exact List.mem_cons_of_mem _ (by simpa using hmem)
                      · rw [hx]
                        simpa using hrel

/-- C8: the output of `removeDuplicates` is a subsequence of its input (every
output record is an unmodified input record and the relative input order is
preserved), and every input record is either kept or was classified an exact
duplicate of a strictly earlier input record that IS kept — i.e. among
records the code classifies as exact duplicates of one another, the earliest
occurrence is the one kept. -/
theorem removeDuplicates_subsequence (data : List PropertyData) :
    (removeDuplicates data).Sublist data
    ∧ ∀ i, ∀ h : i < data.length,
        data.get ⟨i, h⟩ ∈ removeDuplicates data
        ∨ ∃ j, ∃ hj : j < data.length, j < i
            ∧ data.get ⟨j, hj⟩ ∈ removeDuplicates data
            ∧ classifiedDuplicateOf (data.get ⟨j, hj⟩) (data.get ⟨i, h⟩) := by
  refine ⟨removeDupsGo_sublist data [], ?_⟩
  intro i h
  rcases removeDupsGo_earliest data [] (by simp) i h with hmem | ⟨q, k, hk, _⟩ | hr
  · exact Or.inl hmem
  · simp at hk
  · exact Or.inr hr

/-- Witness for C8 at a concrete two-element input (an exact duplicate pair). -/
theorem removeDuplicates_subsequence_witness :
    (removeDuplicates [caseListingLower, caseListingLower]).Sublist
        [caseListingLower, caseListingLower]
    ∧ ([caseListingLower, caseListingLower].get ⟨1, by decide⟩
          ∈ removeDuplicates [caseListingLower, caseListingLower]
        ∨ ∃ j, ∃ hj : j < [caseListingLower, caseListingLower].length, j < 1
            ∧ [caseListingLower, caseListingLower].get ⟨j, hj⟩
                ∈ removeDuplicates [caseListingLower, caseListingLower]
            ∧ classifiedDuplicateOf
                ([caseListingLower, caseListingLower].get ⟨j, hj⟩)
                ([caseListingLower, caseListingLower].get ⟨1, by decide⟩)) :=
  ⟨(removeDuplicates_subsequence [caseListingLower, caseListingLower]).1,
    (removeDuplicates_subsequence [caseListingLower, caseListingLower]).2 1 (by decide)⟩

/-- The `EXCEL_LIMITS` configuration object.  The model functions take the
configuration as an argument (the source reads the module-level constant);
`EXCEL_LIMITS` below is the source's value. -/
structure ExcelLimits where
  MAX_ROWS_PER_SHEET : Nat
  SAFE_MAX_ROWS : Nat
  MAX_SHEETS_PER_WORKBOOK : Nat
  MAX_ROWS_PER_POSTAL_SHEET : Nat
deriving DecidableEq

/-- The configured limits of the source. -/
def EXCEL_LIMITS : ExcelLimits :=
  { MAX_ROWS_PER_SHEET := 1048576, SAFE_MAX_ROWS := 1000000,
    MAX_SHEETS_PER_WORKBOOK := 255, MAX_ROWS_PER_POSTAL_SHEET := 50000 }

/-- One step of the rebuild grouping loop of `rebuildCorruptedMasterFile`:
resolve (or create) the group for the record's postal prefix and push the
record only while the group is below `MAX_ROWS_PER_POSTAL_SHEET`; overflow is
dropped with a console warning (no error value is produced). -/
def groupStep (L : ExcelLimits) (acc : List (Str × List PropertyData))
    (p : PropertyData) : List (Str × List PropertyData) :=
  let pfx := jsToUpper (p.POSTAL.take 2)
  match getSheet acc pfx with
  | none => acc ++ [(pfx, if 0 < L.MAX_ROWS_PER_POSTAL_SHEET then [p] else [])]
  | some g =>
      if g.length < L.MAX_ROWS_PER_POSTAL_SHEET then setSheet acc pfx (g ++ [p])
      else acc

/-- The grouping phase of `rebuildCorruptedMasterFile`: bucket the
deduplicated records by postal prefix with the per-sheet row cap. -/
def rebuildGroup (L : ExcelLimits) (data : List PropertyData) :
    List (Str × List PropertyData) :=
  data.foldl (groupStep L) []

theorem getSheet_setSheet {wb : Workbook} {name : Str} {ws rows : Worksheet}
    (h : getSheet wb name = some ws) :
    getSheet (setSheet wb name rows) name = some rows := by
  induction wb with
  | nil => simp [getSheet] at h
  | cons kv rest ih =>
      obtain ⟨n, w⟩ := kv
      rw [getSheet] at h
      rw [setSheet]
      by_cases hn : n = name
      · rw [if_pos hn, getSheet, if_pos hn]
      · rw [if_neg hn] at h
        rw [if_neg hn, getSheet, if_neg hn]
        exact ih h

theorem getSheet_append_new {wb : Workbook} {name : Str} {rows : Worksheet}
    (h : getSheet wb name = none) :
    getSheet (wb ++ [(name, rows)]) name = some rows := by
  induction wb with
  | nil => simp [getSheet]
  | cons kv rest ih =>
      obtain ⟨n, w⟩ := kv
      rw [getSheet] at h
      by_cases hn : n = name
      · rw [if_pos hn] at h
        cases h
      · rw [if_neg hn] at h
        rw [List.cons_append, getSheet, if_neg hn]
        exact ih h

theorem setSheet_values {P : Worksheet → Prop} {wb : Workbook} {name : Str}
    {rows : Worksheet} (h : ∀ kv ∈ wb, P kv.2) (hr : P rows) :
    ∀ kv ∈ setSheet wb name rows, P kv.2 := by
  induction wb with
  | nil => simp [setSheet]
  | cons kv0 rest ih =>
      obtain ⟨n, w⟩ := kv0
      intro kv hkv
      rw [setSheet] at hkv
      by_cases hn : n = name
      · rw [if_pos hn] at hkv
        rcases List.mem_cons.mp hkv with rfl | hkv
        · exact hr
        · exact h kv (List.mem_cons_of_mem _ hkv)
      · rw [if_neg hn] at hkv
        rcases List.mem_cons.mp hkv with rfl | hkv
        · exact h _ (List.mem_cons_self _ _)
        · exact ih (fun kv2 hkv2 => h kv2 (List.mem_cons_of_mem _ hkv2)) kv hkv

theorem groupStep_bound {L : ExcelLimits} {acc : List (Str × List PropertyData)}
    (h : ∀ kv ∈ acc, kv.2.length ≤ L.MAX_ROWS_PER_POSTAL_SHEET)
    (p : PropertyData) :
    ∀ kv ∈ groupStep L acc p, kv.2.length ≤ L.MAX_ROWS_PER_POSTAL_SHEET := by
  rw [groupStep]
  cases hg : getSheet acc (jsToUpper (p.POSTAL.take 2)) with
  | none =>
      intro kv hkv
      rcases List.mem_append.mp hkv with hkv | hkv
      · exact h kv hkv
      · rcases List.mem_singleton.mp hkv with rfl
        by_cases hpos : 0 < L.MAX_ROWS_PER_POSTAL_SHEET
        · rw [if_pos hpos]
          exact hpos
        · simp [hpos]
  | some g =>
      dsimp only
      by_cases hlen : g.length < L.MAX_ROWS_PER_POSTAL_SHEET
      · rw [if_pos hlen]
        refine setSheet_values
          (P := fun ws => ws.length ≤ L.MAX_ROWS_PER_POSTAL_SHEET) h ?_
        simpa using hlen
      · rw [if_neg hlen]
        exact h

theorem rebuildGroup_bound (L : ExcelLimits) (data : List PropertyData) :
    ∀ kv ∈ rebuildGroup L data, kv.2.length ≤ L.MAX_ROWS_PER_POSTAL_SHEET := by
  suffices hgen : ∀ (acc : List (Str × List PropertyData)),
      (∀ kv ∈ acc, kv.2.length ≤ L.MAX_ROWS_PER_POSTAL_SHEET) →
      ∀ kv ∈ data.foldl (groupStep L) acc, kv.2.length ≤ L.MAX_ROWS_PER_POSTAL_SHEET by
    exact hgen [] (by simp)
  induction data with
  | nil => intro acc hacc; simpa using hacc
  | cons p rest ih =>
      intro acc hacc
      exact ih _ (groupStep_bound hacc p)

/-- C3 (amended): the live append path performs no per-shard capacity check —
whenever the duplicate check does not fire, `addPropertyToWorkbook`
unconditionally appends the row to the routed worksheet (there is no
`CapacityExceeded` result in this path, so shard sizes can grow without
bound).  The per-shard cap `MAX_ROWS_PER_POSTAL_SHEET` is enforced only by
the grouping phase of `rebuildCorruptedMasterFile`, which silently drops
records that would overflow a group, keeping every rebuilt shard at or below
the cap. -/
theorem shard_capacity_behaviour :
    (∀ (wb : Workbook) (p : PropertyData) (pfx : Str),
        checkIfPropertyExists ((getSheet wb pfx).getD []) p = false →
        (addPropertyToWorkbook wb p pfx true).2 = true
        ∧ getSheet (addPropertyToWorkbook wb p pfx true).1 pfx
            = some ((getSheet wb pfx).getD [] ++ [p]))
    ∧ ∀ (L : ExcelLimits) (data : List PropertyData),
        ∀ kv ∈ rebuildGroup L data, kv.2.length ≤ L.MAX_ROWS_PER_POSTAL_SHEET := by
  refine ⟨?_, fun L data => rebuildGroup_bound L data⟩
  intro wb p pfx hnodup
  rw [addPropertyToWorkbook]
  cases hws : getSheet wb pfx with
  | none =>
      have hnew : getSheet (wb ++ [(pfx, [])]) pfx = some [] := getSheet_append_new hws
      rw [hws] at hnodup
      simp only [hnew, hws, Option.getD_some, Option.getD_none] at hnodup ⊢
      rw [hnodup]
      simp only [Bool.and_false, Bool.false_eq_true, if_false]
      exact ⟨trivial, getSheet_setSheet hnew⟩
  | some ws =>
      have hns := hws
      rw [hws] at hnodup
      simp only [hws, Option.getD_some] at hnodup ⊢
      rw [hnodup]
      simp only [Bool.and_false, Bool.false_eq_true, if_false]
      exact ⟨trivial, getSheet_setSheet hns⟩

/-- Witness for C3 (amended) at concrete inputs. -/
theorem shard_capacity_behaviour_witness :
    ((addPropertyToWorkbook [] sampleListing ['M'] true).2 = true
      ∧ getSheet (addPropertyToWorkbook [] sampleListing ['M'] true).1 ['M']
          = some ((getSheet ([] : Workbook) ['M']).getD [] ++ [sampleListing]))
    ∧ (['M', '5'], [sampleListing]).2.length ≤ EXCEL_LIMITS.MAX_ROWS_PER_POSTAL_SHEET :=
  ⟨shard_capacity_behaviour.1 [] sampleListing ['M'] (by decide),
   shard_capacity_behaviour.2 EXCEL_LIMITS [sampleListing]
     (['M', '5'], [sampleListing]) (by decide)⟩

/-- A second listing sharing `caseListingLower`'s postal prefix but with a
different address. -/
def secondListing : PropertyData := { caseListingLower with ADDRESS := ['2'] }

/-- Per-postal-sheet limit of one row, instantiating the claim's
`maxRowsPerShard = N` at `N = 1`. -/
def tinyLimits : ExcelLimits :=
  { MAX_ROWS_PER_SHEET := 1048576, SAFE_MAX_ROWS := 1000000,
    MAX_SHEETS_PER_WORKBOOK := 255, MAX_ROWS_PER_POSTAL_SHEET := 1 }

/-- A data row counts as empty for the health scan and the cleanup passes
when its ADDRESS or POSTAL cell is empty (the JS test
`!row.hasValues || !row.getCell(2).value || !row.getCell(5).value`). -/
def rowIsEmpty (r : PropertyData) : Bool := r.ADDRESS.isEmpty || r.POSTAL.isEmpty

/-- Empty data rows of a worksheet (health scan counting). -/
def emptyRowsIn (ws : Worksheet) : Nat := (ws.filter rowIsEmpty).length

/-- Valid data rows of a worksheet (health scan counting). -/
def validRowsIn (ws : Worksheet) : Nat := (ws.filter fun r => !rowIsEmpty r).length

/-- Count `worksheet.rowCount`: data rows plus the header row. -/
def sheetRowCount (ws : Worksheet) : Nat := ws.length + 1

/-- The issue messages `validateExcelFileHealth` can push, one constructor
per distinct message template. -/
inductive HealthIssue where
  | fileDoesNotExist (filename : Str)
  | noWorksheets
  | tooManyRows (sheet : Str)
  | excessiveEmptyRowsInSheet (sheet : Str)
  | approachingRowLimit
  | excessiveEmptyRowsInFile
  | criticalCorruption (msg : Str)
deriving DecidableEq

/-- The `stats` object of `validateExcelFileHealth`.  `corruptedSheets` is
incremented only by a per-sheet exception handler, which cannot fire in the
pure model, so it is always 0 here. -/
structure HealthStats where
  totalSheets : Nat
  totalRows : Nat
  emptyRows : Nat
  maxRowsInSheet : Nat
  corruptedSheets : Nat
  validProperties : Nat
deriving DecidableEq

/-- The result of `validateExcelFileHealth`. -/
structure HealthReport where
  isHealthy : Bool
  issues : List HealthIssue
  stats : HealthStats
deriving DecidableEq

/-- The all-zero stats returned on the early-exit paths. -/
def zeroHealthStats : HealthStats := ⟨0, 0, 0, 0, 0, 0⟩

/-- The issues contributed by one worksheet: a too-many-rows issue when
`rowCount > SAFE_MAX_ROWS`, and an excessive-empty-rows issue when
`emptyRowsInSheet > validPropertiesInSheet * 0.1` (written as the exact
comparison `valid < 10 * empty`). -/
def sheetIssues (L : ExcelLimits) (s : Str × Worksheet) : List HealthIssue :=
  (if L.SAFE_MAX_ROWS < sheetRowCount s.2 then [HealthIssue.tooManyRows s.1] else [])
  ++ (if validRowsIn s.2 < 10 * emptyRowsIn s.2
      then [HealthIssue.excessiveEmptyRowsInSheet s.1] else [])

/-- The main body of `validateExcelFileHealth` on a successfully parsed
workbook: per-sheet issues in sheet order, then the approaching-row-limit
check (`totalRows > SAFE_MAX_ROWS * 0.8`, written `4 * SAFE < 5 * total`),
then the store-wide excessive-empty-rows check
(`emptyRows > validProperties * 0.05`, written `valid < 20 * empty`).
`isHealthy = (issues.length == 0)`. -/
def validateCore (L : ExcelLimits) (sheets : List (Str × Worksheet)) : HealthReport :=
  let stats : HealthStats :=
    { totalSheets := sheets.length
      totalRows := (sheets.map fun s => sheetRowCount s.2).sum
      emptyRows := (sheets.map fun s => emptyRowsIn s.2).sum
      maxRowsInSheet := (sheets.map fun s => sheetRowCount s.2).foldl max 0
      corruptedSheets := 0
      validProperties := (sheets.map fun s => validRowsIn s.2).sum }
  let issues :=
    (if sheets.length = 0 then [HealthIssue.noWorksheets] else [])
    ++ (sheets.map (sheetIssues L)).flatten
    ++ (if 4 * L.SAFE_MAX_ROWS < 5 * stats.totalRows
        then [HealthIssue.approachingRowLimit] else [])
    ++ (if stats.validProperties < 20 * stats.emptyRows
        then [HealthIssue.excessiveEmptyRowsInFile] else [])
  { isHealthy := issues.length == 0, issues := issues, stats := stats }

/-- What the health validator is handed: the store file may be absent, may
fail to parse (the `readFile` rejection caught by the outer catch), or
parses into a list of named worksheets. -/
inductive StoreInput where
  | missing (filename : Str)
  | unreadable (errMsg : Str)
  | parsed (sheets : List (Str × Worksheet))

/-- Model of `validateExcelFileHealth`: total at its interface.  A missing file and
an unparseable file both produce a report (isHealthy false, one issue)
instead of an exception. -/
def validateExcelFileHealth (L : ExcelLimits) (inp : StoreInput) : HealthReport :=
  match inp with
  | .missing f =>
      { isHealthy := false, issues := [HealthIssue.fileDoesNotExist f],
        stats := zeroHealthStats }
  | .unreadable e =>
      { isHealthy := false, issues := [HealthIssue.criticalCorruption e],
        stats := zeroHealthStats }
  | .parsed sheets => validateCore L sheets

/-- The per-row extraction of `rebuildCorruptedMasterFile`: DATE falls back
to the current date when empty after trimming (the `today` parameter), text
fields are trimmed and uppercased, PRICE/LATITUDE/LONGITUDE only trimmed. -/
def extractRow (today : Str) (r : PropertyData) : PropertyData :=
  { DATE := if (jsTrim r.DATE).isEmpty then today else jsTrim r.DATE
    ADDRESS := normTU r.ADDRESS, CITY := normTU r.CITY, STATE := normTU r.STATE
    POSTAL := normTU r.POSTAL, AGENT := normTU r.AGENT, BROKER := normTU r.BROKER
    PRICE := jsTrim r.PRICE, LATITUDE := jsTrim r.LATITUDE
    LONGITUDE := jsTrim r.LONGITUDE }

/-- The extraction phase of `rebuildCorruptedMasterFile`: per sheet, scan
the data rows up to `SAFE_MAX_ROWS` (row numbers 2..min(rowCount, SAFE)),
keep rows whose raw ADDRESS and POSTAL cells are non-empty, normalize them,
and keep only those still having ADDRESS and POSTAL after normalization.
NOTE: rows skipped here are NOT counted anywhere. -/
def extractFromSheets (L : ExcelLimits) (today : Str)
    (sheets : List (Str × Worksheet)) : List PropertyData :=
  (sheets.map fun s =>
    (((s.2.take (L.SAFE_MAX_ROWS - 1)).filter
        fun r => !r.ADDRESS.isEmpty && !r.POSTAL.isEmpty).map (extractRow today)).filter
      fun p => !p.ADDRESS.isEmpty && !p.POSTAL.isEmpty).flatten

/-- The `stats` record returned by `rebuildCorruptedMasterFile`. -/
structure RebuildStats where
  totalProperties : Nat
  sheetsCreated : Nat
  propertiesProcessed : Nat
  duplicatesRemoved : Nat
  corruptedRowsSkipped : Nat
  replacedOriginal : Bool
deriving DecidableEq

/-- The pure data transformation of `rebuildCorruptedMasterFile` (extraction,
deduplication, grouping) together with the stats it reports.
`corruptedRowsSkipped` is initialized to 0 by the source and never
incremented on any path, exactly as modelled. -/
def rebuildDataPass (L : ExcelLimits) (today : Str)
    (sheets : List (Str × Worksheet)) : RebuildStats × List (Str × List PropertyData) :=
  let extracted := extractFromSheets L today sheets
  let uniqueData := removeDuplicates extracted
  let grouped := rebuildGroup L uniqueData
  ({ totalProperties := uniqueData.length
     sheetsCreated := grouped.length
     propertiesProcessed := (grouped.map fun g => g.2.length).sum
     duplicatesRemoved := extracted.length - uniqueData.length
     corruptedRowsSkipped := 0
     replacedOriginal := false }, grouped)

/-- The K of the rebuild-completeness claim: rows of the persisted store
missing ADDRESS or POSTAL. -/
def corruptRowCount (sheets : List (Str × Worksheet)) : Nat :=
  (((sheets.map Prod.snd).flatten).filter
    fun r => r.ADDRESS.isEmpty || r.POSTAL.isEmpty).length

/-- Existence flags for the three files `rebuildCorruptedMasterFile`
touches: the original store, the timestamped backup, and the temporary
rebuilt file. -/
structure FsState where
  original : Bool
  backup : Bool
  temp : Bool
deriving DecidableEq, Fintype

/-- Success/failure oracle for the four mutating file-system primitives of
the rebuild: `copyFileSync` (backup), `writeFile` (temp), `unlinkSync`
(original) and `renameSync` (temp → original).  A `false` flag makes the
primitive throw at its call site. -/
structure IoOracle where
  copyOk : Bool
  writeOk : Bool
  unlinkOk : Bool
  renameOk : Bool
deriving DecidableEq, Fintype

/-- The outer catch of `rebuildCorruptedMasterFile`: delete the temp file if
it exists and report failure. -/
def rebuildOuterCatch (fs : FsState) : FsState × Bool :=
  ({ fs with temp := false }, false)

/-- Steps 3–5 of the rebuild after the backup: write the rebuilt workbook to
the temp file, then (when replacing) unlink the original FIRST and rename
the temp file onto the original name; a throw from unlink or rename is
caught by the inner catch, which keeps the temp file and still reports
success. -/
def rebuildReplaceSteps (fs : FsState) (o : IoOracle) (replaceOriginal : Bool) :
    FsState × Bool :=
  if o.writeOk then
    let fs1 : FsState := { fs with temp := true }
    if replaceOriginal then
      if fs1.original then
        if o.unlinkOk then
          let fs2 : FsState := { fs1 with original := false }
          if o.renameOk then ({ fs2 with original := true, temp := false }, true)
          else (fs2, true)
        else (fs1, true)
      else
        if o.renameOk then ({ fs1 with original := true, temp := false }, true)
        else (fs1, true)
    else (fs1, true)
  else rebuildOuterCatch fs

/-- The file-system effects of `rebuildCorruptedMasterFile`: back up the
original first when it exists (a throw from the copy aborts everything via
the outer catch), then write and replace. -/
def rebuildFileOps (fs : FsState) (o : IoOracle) (replaceOriginal : Bool) :
    FsState × Bool :=
  if fs.original then
    if o.copyOk then rebuildReplaceSteps { fs with backup := true } o replaceOriginal
    else rebuildOuterCatch fs
  else rebuildReplaceSteps fs o replaceOriginal

/-- C3 (counterexample): with `maxRowsPerShard = 1`, ingesting two records
routed to the same shard does NOT make the second (`N+1`-th) append return a
capacity error: the live path appends it anyway (verdict `true`) and the
shard ends with 2 rows, exceeding `N = 1`. -/
theorem capacity_not_enforced_live :
    tinyLimits.MAX_ROWS_PER_POSTAL_SHEET = 1
    ∧ (ingestIntoMaster (ingestIntoMaster [] caseListingLower).1 secondListing).2
        = true
    ∧ ((getSheet (ingestIntoMaster (ingestIntoMaster [] caseListingLower).1
          secondListing).1 (jsToUpper (caseListingLower.POSTAL.take 2))).getD []).length
        = 2 := by decide

/-- C9: the health validation is total at its interface — for a store file
that does not exist and for one that cannot be parsed it returns a report
with `isHealthy = false` and a non-empty issues list (the model function is
total, mirroring the early-return and the outer catch of the source, so no
exception reaches the caller). -/
theorem validateExcelFileHealth_total_on_failures :
    (∀ (L : ExcelLimits) (f : Str),
        (validateExcelFileHealth L (StoreInput.missing f)).isHealthy = false
        ∧ (validateExcelFileHealth L (StoreInput.missing f)).issues ≠ [])
    ∧ ∀ (L : ExcelLimits) (e : Str),
        (validateExcelFileHealth L (StoreInput.unreadable e)).isHealthy = false
        ∧ (validateExcelFileHealth L (StoreInput.unreadable e)).issues ≠ [] := by
  constructor <;> intro L s <;> exact ⟨rfl, by simp [validateExcelFileHealth]⟩

theorem excessiveEmptyRowsInFile_not_in_sheetIssues (L : ExcelLimits)
    (s : Str × Worksheet) :
    HealthIssue.excessiveEmptyRowsInFile ∉ sheetIssues L s := by
  rw [sheetIssues]
  split <;> split <;> simp

/-- C7 (amended): the health scan reports the store-wide excessive-empty-rows
issue iff `emptyRows > 0.05 * validProperties` — the 5% threshold is taken of
the VALID property count, not of `totalRows` (which also counts header
rows); written with the exact comparison `validProperties < 20 * emptyRows`. -/
theorem excessiveEmptyRows_storewide_iff (L : ExcelLimits)
    (sheets : List (Str × Worksheet)) :
    HealthIssue.excessiveEmptyRowsInFile ∈ (validateCore L sheets).issues
      ↔ (validateCore L sheets).stats.validProperties
          < 20 * (validateCore L sheets).stats.emptyRows := by
  have hsheet : ∀ is ∈ sheets.map (sheetIssues L),
      HealthIssue.excessiveEmptyRowsInFile ∉ is := by
    intro is his
    rcases List.mem_map.mp his with ⟨s, _, rfl⟩
    exact excessiveEmptyRowsInFile_not_in_sheetIssues L s
  rw [validateCore]
  simp only [List.mem_append, List.mem_flatten]
  constructor
  · rintro (((h | h) | h) | h)
    · revert h; split <;> simp
    · rcases h with ⟨is, his, hmem⟩
      exact absurd hmem (hsheet is his)
    · revert h; split <;> simp
    · revert h; split <;> simp_all
  · intro h
    right
    rw [if_pos h]
    simp

/-- A valid row for the health-scan counterexample. -/
def validHealthRow : PropertyData := { blankProperty with ADDRESS := ['a'], POSTAL := ['p'] }

/-- A one-sheet store with 19 valid rows and 1 empty row. -/
def healthSheets : List (Str × Worksheet) :=
  [(['M'], List.replicate 19 validHealthRow ++ [blankProperty])]

/-- C7 (counterexample): on a store with 19 valid rows and 1 empty row
(`totalRows` = 21 with the header), the scan DOES report the store-wide
excessive-empty-rows issue although `emptyRows > 0.05 * totalRows` is false
(1 ≤ 21/20) — the claim's iff fails because the code divides by the valid
count, not the total row count. -/
theorem excessiveEmptyRows_storewide_cex :
    (validateCore EXCEL_LIMITS healthSheets).stats.totalRows = 21
    ∧ (validateCore EXCEL_LIMITS healthSheets).stats.emptyRows = 1
    ∧ HealthIssue.excessiveEmptyRowsInFile ∈ (validateCore EXCEL_LIMITS healthSheets).issues
    ∧ ¬ ((validateCore EXCEL_LIMITS healthSheets).stats.totalRows
          < 20 * (validateCore EXCEL_LIMITS healthSheets).stats.emptyRows) := by decide

/-- A persisted row missing its POSTAL cell. -/
def missingPostalRow : PropertyData :=
  { caseListingLower with ADDRESS := ['2'], POSTAL := [] }

/-- A persisted store with M = 1 well-formed record and K = 1 row missing
POSTAL. -/
def corruptedStoreSheets : List (Str × Worksheet) :=
  [(['M', '5'], [caseListingLower, missingPostalRow])]

/-- C6: the rebuilder does drop the K rows missing ADDRESS or POSTAL and
keeps the M well-formed records, but the reported `corruptedRowsSkipped` is
identically 0 on every input — the counter is initialized and never
incremented — so the claim "reports corruptedRowsSkipped == K" fails for
every store with K ≥ 1, e.g. the concrete store below with K = 1. -/
theorem rebuild_corruptedRowsSkipped_always_zero :
    (∀ (L : ExcelLimits) (today : Str) (sheets : List (Str × Worksheet)),
        (rebuildDataPass L today sheets).1.corruptedRowsSkipped = 0)
    ∧ corruptRowCount corruptedStoreSheets = 1
    ∧ (rebuildDataPass EXCEL_LIMITS [] corruptedStoreSheets).1.totalProperties = 1
    ∧ (rebuildDataPass EXCEL_LIMITS [] corruptedStoreSheets).1.corruptedRowsSkipped = 0 :=
  ⟨fun _ _ _ => rfl, by decide, by decide, by decide⟩

/-- C5 (amended): whenever the original store exists a backup copy is made
before any mutation, and on every run in which the original ends up deleted
the backup exists; but an I/O failure during the replacement step does NOT
always preserve the original: the code unlinks the original BEFORE renaming
the rebuilt file onto it, so a rename failure (with successful earlier
steps) leaves the backup and the rebuilt temp file intact while the original
is already gone. -/
theorem rebuild_backup_and_replace (fs : FsState) (o : IoOracle) (r : Bool)
    (h0 : fs.original = true) (ht : fs.temp = false) :
    ((rebuildFileOps fs o r).1.original = false → (rebuildFileOps fs o r).1.backup = true)
    ∧ (o.copyOk = true → (rebuildFileOps fs o r).1.backup = true)
    ∧ (o.copyOk = true ∧ o.writeOk = true ∧ o.unlinkOk = true ∧ o.renameOk = false
        ∧ r = true →
        (rebuildFileOps fs o r).1.backup = true
        ∧ (rebuildFileOps fs o r).1.temp = true
        ∧ (rebuildFileOps fs o r).1.original = false) := by
  have H : ∀ (fs : FsState) (o : IoOracle) (r : Bool),
      fs.original = true → fs.temp = false →
      ((rebuildFileOps fs o r).1.original = false → (rebuildFileOps fs o r).1.backup = true)
      ∧ (o.copyOk = true → (rebuildFileOps fs o r).1.backup = true)
      ∧ (o.copyOk = true ∧ o.writeOk = true ∧ o.unlinkOk = true ∧ o.renameOk = false
          ∧ r = true →
          (rebuildFileOps fs o r).1.backup = true
          ∧ (rebuildFileOps fs o r).1.temp = true
          ∧ (rebuildFileOps fs o r).1.original = false) := by decide
  exact H fs o r h0 ht

/-- Witness for C5 (amended) at a concrete state and oracle. -/
theorem rebuild_backup_and_replace_witness :
    ((rebuildFileOps ⟨true, false, false⟩ ⟨true, true, true, true⟩ true).1.original = false →
        (rebuildFileOps ⟨true, false, false⟩ ⟨true, true, true, true⟩ true).1.backup = true)
    ∧ ((⟨true, true, true, true⟩ : IoOracle).copyOk = true →
        (rebuildFileOps ⟨true, false, false⟩ ⟨true, true, true, true⟩ true).1.backup = true)
    ∧ ((⟨true, true, true, true⟩ : IoOracle).copyOk = true
        ∧ (⟨true, true, true, true⟩ : IoOracle).writeOk = true
        ∧ (⟨true, true, true, true⟩ : IoOracle).unlinkOk = true
        ∧ (⟨true, true, true, true⟩ : IoOracle).renameOk = false
        ∧ true = true →
        (rebuildFileOps ⟨true, false, false⟩ ⟨true, true, true, true⟩ true).1.backup = true
        ∧ (rebuildFileOps ⟨true, false, false⟩ ⟨true, true, true, true⟩ true).1.temp = true
        ∧ (rebuildFileOps ⟨true, false, false⟩ ⟨true, true, true, true⟩ true).1.original = false) :=
  rebuild_backup_and_replace ⟨true, false, false⟩ ⟨true, true, true, true⟩ true rfl rfl

/-- C5 (counterexample): starting from a store with only the original
present, a run whose `renameSync` fails (all earlier primitives succeed,
`replaceOriginal = true`) ends with the backup and the rebuilt temp file on
disk but WITHOUT the original store file — the replacement failure did not
preserve the original, contradicting the claim. -/
theorem rebuild_replace_failure_loses_original :
    (rebuildFileOps ⟨true, false, false⟩ ⟨true, true, true, false⟩ true).1.backup = true
    ∧ (rebuildFileOps ⟨true, false, false⟩ ⟨true, true, true, false⟩ true).1.temp = true
    ∧ (rebuildFileOps ⟨true, false, false⟩ ⟨true, true, true, false⟩ true).1.original = false := by
  decide
